import Mathlib

/-!
Verification of the PlantPixel vision-and-scoring core against its
specification.  The relevant Python functions are shallowly embedded:
numeric values are modelled as rationals (`ℚ`), Python dicts keyed by the
five metric names as functions `Metric → Option ℚ`, and fallible OpenCV
calls as `Except`-valued functions.  Every definition mirrors the source
file it names.
-/

namespace PlantPixel

/-! ## Growth scorer (`backend/services/growth_analysis.py`) -/

/-- The five metric keys of `STANDARD_WEIGHTS` in
`backend/services/growth_analysis.py`. -/
inductive Metric where
  | bounding_box_area
  | green_pixel_ratio
  | leaf_count
  | color_health_index
  | sunlight_proxy
  deriving DecidableEq, Repr

/-- `STANDARD_WEIGHTS` (growth_analysis.py lines 15-21). -/
def STANDARD_WEIGHTS : Metric → ℚ
  | .bounding_box_area => 25/100
  | .green_pixel_ratio => 25/100
  | .leaf_count => 20/100
  | .color_health_index => 20/100
  | .sunlight_proxy => 10/100

/-- Iteration order of the `STANDARD_WEIGHTS` dict (Python dicts preserve
insertion order). -/
def weightOrder : List Metric :=
  [.bounding_box_area, .green_pixel_ratio, .leaf_count,
   .color_health_index, .sunlight_proxy]

/-- A metric dict: each of the five keys is present (`some v`) or absent. -/
def MetricSet : Type := Metric → Option ℚ

/-- Per-metric percentage change (growth_analysis.py lines 84-88):
`((curr - prev) / prev) * 100` when `prev > 0`, else `0` when `curr == 0`
and `100` otherwise. -/
def metricDelta (prev_val curr_val : ℚ) : ℚ :=
  if 0 < prev_val then ((curr_val - prev_val) / prev_val) * 100
  else if curr_val = 0 then 0 else 100

/-- `normalized_delta = max(min(delta / 100, 1.0), -1.0)`
(growth_analysis.py line 93). -/
def normalizedDelta (delta : ℚ) : ℚ := max (min (delta / 100) 1) (-1)

/-- The loop body's contribution of one key to `growth_score`
(growth_analysis.py lines 79-94): `weight * normalized_delta` when the key
is in both dicts, nothing otherwise. -/
def scoreTerm (before after : MetricSet) (key : Metric) : ℚ :=
  match before key, after key with
  | some prev_val, some curr_val =>
      STANDARD_WEIGHTS key * normalizedDelta (metricDelta prev_val curr_val)
  | _, _ => 0

/-- The accumulated `growth_score` after the loop (growth_analysis.py
lines 76-94). -/
def growthAccum (before after : MetricSet) : ℚ :=
  (weightOrder.map (scoreTerm before after)).sum

/-- The `deltas` dict built by the loop (growth_analysis.py lines 77-90). -/
def growthDeltas (before after : MetricSet) : MetricSet :=
  fun key =>
    match before key, after key with
    | some prev_val, some curr_val => some (metricDelta prev_val curr_val)
    | _, _ => none

/-- `compare_and_score_growth` (growth_analysis.py lines 70-99): returns
`(final_score, deltas)` with
`final_score = max(0, min(100, (growth_score + 1) * 50))`. -/
def compare_and_score_growth (before_metrics after_metrics : MetricSet) :
    ℚ × MetricSet :=
  (max 0 (min 100 ((growthAccum before_metrics after_metrics + 1) * 50)),
   growthDeltas before_metrics after_metrics)

/-- Pointwise update of a metric dict at one key. -/
def MetricSet.set (m : MetricSet) (key : Metric) (v : ℚ) : MetricSet :=
  fun k => if k = key then some v else m k

/-! ## Metric extraction wrapper (`extract_metrics`) -/

/-- The five values computed inside the `try` block of `extract_metrics`
(growth_analysis.py lines 29-56) when no step raises. -/
structure MetricsRaw where
  bounding_box_area : ℚ
  green_pixel_ratio : ℚ
  leaf_count : ℚ
  color_health_index : ℚ
  sunlight_proxy : ℚ

/-- Outcome of the OpenCV pipeline inside `extract_metrics`' `try` block:
either all five metric computations succeed, or some step raises.  The
pipeline itself calls into OpenCV and is opaque to the wrapper; the wrapper
logic is what is embedded. -/
def PipelineOutcome : Type := Except Unit MetricsRaw

/-- The all-default dict returned by the `except` branch of
`extract_metrics` (growth_analysis.py lines 61-67). -/
def defaultMetricSet : MetricSet
  | .bounding_box_area => some 0
  | .green_pixel_ratio => some 0
  | .leaf_count => some 0
  | .color_health_index => some 0
  | .sunlight_proxy => some 0

/-- `extract_metrics` (growth_analysis.py lines 24-67): returns the dict of
the five computed metrics on success, and the all-default dict when any
internal step raises; in either case a total function of the pipeline
outcome (the `except Exception` clause means no exception escapes). -/
def extract_metrics (pipeline : PipelineOutcome) : MetricSet :=
  match pipeline with
  | .ok m => fun key =>
      match key with
      | .bounding_box_area => some m.bounding_box_area
      | .green_pixel_ratio => some m.green_pixel_ratio
      | .leaf_count => some m.leaf_count
      | .color_health_index => some m.color_health_index
      | .sunlight_proxy => some m.sunlight_proxy
  | .error _ => defaultMetricSet

/-! ## Dynamic green bounds
(`backend/core/Preprocessing/dynamicThresholding.py`) -/

/-- An HSV triple, as a KMeans cluster centre (floating-point in the code,
exact rationals here). -/
structure HSVq where
  h : ℚ
  s : ℚ
  v : ℚ
  deriving DecidableEq, Repr

/-- A returned `(lower, upper)` pair of integer HSV bound triples. -/
def Bounds : Type := (ℤ × ℤ × ℤ) × (ℤ × ℤ × ℤ)

instance : DecidableEq Bounds := by unfold Bounds; infer_instance

/-- The input space of `get_dynamic_green_bounds` as seen by its control
flow: the image is `None`/zero-size, or some step of the `try` block raises,
or clustering and histogram analysis complete, yielding the KMeans cluster
centres and the hue-histogram peaks (already sorted by prominence, as
`compute_histogram_peak` returns them). -/
inductive BoundsInput where
  | degenerate
  | raises
  | analyzed (centers : List HSVq) (hue_peaks : List ℕ)

/-- Fallback bounds for a `None`/zero-size image
(dynamicThresholding.py line 65). -/
def FALLBACK_DEGENERATE : Bounds := ((25, 40, 40), (90, 255, 255))

/-- Fallback bounds for the `except` branch and the ultimate no-green
branch (dynamicThresholding.py lines 135 and 163). -/
def FALLBACK_ERROR : Bounds := ((30, 40, 40), (85, 255, 255))

/-- Green-cluster classification (dynamicThresholding.py lines 102-110):
`some confidence` when the centre falls in the primary (1.0) or extended
(0.6) green band, `none` otherwise. -/
def clusterConfidence (c : HSVq) : Option ℚ :=
  if 40 ≤ c.h ∧ c.h ≤ 80 ∧ 30 ≤ c.s ∧ 40 ≤ c.v then some 1
  else if 25 ≤ c.h ∧ c.h ≤ 95 ∧ 20 ≤ c.s ∧ 30 ≤ c.v then some (6/10)
  else none

/-- `greenish_clusters` (dynamicThresholding.py lines 101-110). -/
def greenishClusters (centers : List HSVq) : List (HSVq × ℚ) :=
  centers.filterMap (fun c => (clusterConfidence c).map (fun conf => (c, conf)))

/-- `x` strictly precedes `y` after the stable descending sort on the key
`(confidence, saturation)` (dynamicThresholding.py line 119). -/
def sortKeyLt (x y : HSVq × ℚ) : Prop :=
  x.2 < y.2 ∨ (x.2 = y.2 ∧ x.1.s < y.1.s)

instance (x y : HSVq × ℚ) : Decidable (sortKeyLt x y) := by
  unfold sortKeyLt; infer_instance

/-- `greenish_clusters.sort(key=..., reverse=True)` followed by `[0]`: the
head of a stable descending sort is the first element attaining the maximal
key, computed here by a fold that only replaces the current best on a
strictly larger key. -/
def chooseGreen : List (HSVq × ℚ) → Option (HSVq × ℚ)
  | [] => none
  | x :: xs =>
      some (xs.foldl (fun best y => if sortKeyLt best y then y else best) x)

/-- `green_peaks = [p for p in hue_peaks if 25 <= p <= 95]`
(dynamicThresholding.py line 114). -/
def greenPeaks (hue_peaks : List ℕ) : List ℕ :=
  hue_peaks.filter (fun p => 25 ≤ p ∧ p ≤ 95)

/-- The `typical_green` reference centre `[60, 100, 100]`
(dynamicThresholding.py line 125). -/
def typicalGreen : HSVq := ⟨60, 100, 100⟩

/-- The centre-resolution policy (dynamicThresholding.py lines 116-135):
best green cluster, pulled `0.7/0.3` toward `typical_green` when no green
histogram peak corroborates it; else a centre `(best_peak, 80, 80)`
synthesized from the first green peak; else `none` (ultimate fallback). -/
def resolveCenter (centers : List HSVq) (hue_peaks : List ℕ) : Option HSVq :=
  match chooseGreen (greenishClusters centers) with
  | some best =>
      if greenPeaks hue_peaks = [] then
        some ⟨7/10 * best.1.h + 3/10 * typicalGreen.h,
              7/10 * best.1.s + 3/10 * typicalGreen.s,
              7/10 * best.1.v + 3/10 * typicalGreen.v⟩
      else some best.1
  | none =>
      match greenPeaks hue_peaks with
      | p :: _ => some ⟨(p : ℚ), 80, 80⟩
      | [] => none

/-- `astype(np.uint8)` on a float array entry: truncation toward zero (equal
to `⌊·⌋` for the non-negative values arising here) reduced mod 256. -/
def u8cast (q : ℚ) : ℤ := ⌊q⌋ % 256

/-- The adaptive-margin bounds computation (dynamicThresholding.py lines
137-158) on a resolved centre; `margin` is the keyword parameter
(default 15).  `sat // 10` is Python float floor-division. -/
def adaptiveBounds (margin : ℚ) (c : HSVq) : Bounds :=
  let hue_margin : ℚ := max 10 (min margin (25 - (⌊c.s / 10⌋ : ℚ)))
  let sat_margin : ℚ := min 60 (max 40 (100 - c.s))
  let val_margin : ℚ := min 60 (max 40 (120 - c.v))
  ((u8cast (max 0 (c.h - hue_margin)),
    u8cast (max 0 (c.s - sat_margin)),
    u8cast (max 0 (c.v - val_margin))),
   (u8cast (min 179 (c.h + hue_margin)), 255, 255))

/-- `get_dynamic_green_bounds` (dynamicThresholding.py lines 55-163). -/
def get_dynamic_green_bounds (input : BoundsInput) (margin : ℚ := 15) :
    Bounds :=
  match input with
  | .degenerate => FALLBACK_DEGENERATE
  | .raises => FALLBACK_ERROR
  | .analyzed centers hue_peaks =>
      match resolveCenter centers hue_peaks with
      | some c => adaptiveBounds margin c
      | none => FALLBACK_ERROR

/-- A physically realizable analysis input: KMeans centres are convex
combinations of HSV pixels (hue 0-179, saturation/value 0-255) and peaks
are indices of the 180-bin hue histogram. -/
def WellFormedInput : BoundsInput → Prop
  | .analyzed centers hue_peaks =>
      (∀ c ∈ centers, 0 ≤ c.h ∧ c.h ≤ 179 ∧ 0 ≤ c.s ∧ c.s ≤ 255 ∧
        0 ≤ c.v ∧ c.v ≤ 255) ∧ ∀ p ∈ hue_peaks, p ≤ 179
  | _ => True

/-! ## Image preprocessing (`backend/core/Preprocessing/preprocess.py`) -/

/-- A NumPy image raster: shape plus flattened pixel data. -/
structure NpImage where
  rows : ℕ
  cols : ℕ
  channels : ℕ
  pix : ℕ → ℕ

/-- `img.size`: the total number of scalar entries. -/
def NpImage.size (img : NpImage) : ℕ := img.rows * img.cols * img.channels

/-- `np.zeros((h, w, ch))` (with `ch = 1` for a single-channel mask). -/
def npZeros (h w ch : ℕ) : NpImage := ⟨h, w, ch, fun _ => 0⟩

/-- All entries of the raster are zero. -/
def NpImage.allZero (img : NpImage) : Prop := ∀ i, img.pix i = 0

/-- Errors OpenCV raises on the paths modelled here. -/
inductive CvError where
  | resizeEmptySrc
  deriving DecidableEq, Repr

/-- `cv2.resize(img, (w, h))`: OpenCV asserts `!ssize.empty()`, raising
`cv2.error` when the source raster has no pixels; otherwise it produces a
raster of the target shape (its pixel values are irrelevant to the claims
and left abstract via the source's data). -/
def cv2_resize (img : NpImage) (size : ℕ × ℕ) : Except CvError NpImage :=
  if img.size = 0 then .error .resizeEmptySrc
  else .ok ⟨size.2, size.1, img.channels, img.pix⟩

/-- The dict returned by `preprocess_image`. -/
structure PreprocessOut where
  original : NpImage
  blurred : NpImage
  mask : NpImage
  plant_only : NpImage

/-- `preprocess_image` (preprocess.py lines 17-99): a `None` image
short-circuits to all-zero outputs of the working shape; otherwise the
image is resized first (`cv2.resize`, which raises on an empty source) and
the remaining OpenCV pipeline (denoising, masking, morphology), opaque to
the degenerate-input claims, is the parameter `rest`. -/
def preprocess_image (rest : NpImage → PreprocessOut)
    (img : Option NpImage) (size : ℕ × ℕ := (300, 300)) :
    Except CvError PreprocessOut :=
  match img with
  | none =>
      .ok ⟨npZeros size.1 size.2 3, npZeros size.1 size.2 3,
           npZeros size.1 size.2 1, npZeros size.1 size.2 3⟩
  | some im =>
      match cv2_resize im (size.2, size.1) with
      | .error e => .error e
      | .ok img_resized => .ok (rest img_resized)

/-! ## Leaf-count seeding (`backend/utils/comparison_metrics.py`) -/

/-- The distance transform of the cleaned mask, as the list of per-pixel
distances to the background. -/
def DistTransform : Type := List ℚ

/-- `dist_transform.max()`: NumPy reduces with binary `max` over the
entries (the mask is non-empty on this path, so the list is non-empty and
the `0` seed is never returned). -/
def maxDist (dist : DistTransform) : ℚ := dist.foldl max 0

/-- `threshold_factor = min(0.6, max(0.3, max_dist / 50))`
(comparison_metrics.py line 125). -/
def threshold_factor (max_dist : ℚ) : ℚ :=
  min (6/10) (max (3/10) (max_dist / 50))

/-- One pixel of `cv2.threshold(src, thresh, 255, 0)` with
`cv2.THRESH_BINARY` (type 0): `255` when the source strictly exceeds the
threshold, `0` otherwise. -/
def thresholdBinaryPx (thresh : ℚ) (src : ℚ) : ℚ :=
  if thresh < src then 255 else 0

/-- The `sure_fg` seed image of `estimate_leaf_count` (comparison_metrics.py
lines 122-128): when `max_dist > 0`, threshold the distance transform at
`threshold_factor * max_dist`; otherwise the function returns early with
count 0 (`none` here). -/
def sure_fg_seeds (dist : DistTransform) : Option (List ℚ) :=
  let max_dist := maxDist dist
  if 0 < max_dist then
    some (dist.map (thresholdBinaryPx (threshold_factor max_dist * max_dist)))
  else none

/-! ## Auxiliary definitions for the claims -/

/-- The constant metric dict assigning `q` to every key, used for witnesses. -/
def mset (q : ℚ) : MetricSet := fun _ => some q

/-- A concrete stand-in for the non-degenerate remainder of the
preprocessing pipeline, used to evaluate the degenerate paths (which never
reach it). -/
def trivialRest : NpImage → PreprocessOut := fun img => ⟨img, img, img, img⟩

/-- The ColorBounds invariant of the spec's data model: componentwise
`0 ≤ lower ≤ upper`, hue bounds at most 179, saturation/value bounds at
most 255. -/
def GoodBounds (b : Bounds) : Prop :=
  0 ≤ b.1.1 ∧ b.1.1 ≤ b.2.1 ∧ b.2.1 ≤ 179 ∧
  0 ≤ b.1.2.1 ∧ b.1.2.1 ≤ b.2.2.1 ∧ b.2.2.1 ≤ 255 ∧
  0 ≤ b.1.2.2 ∧ b.1.2.2 ≤ b.2.2.2 ∧ b.2.2.2 ≤ 255

instance (b : Bounds) : Decidable (GoodBounds b) := by
  unfold GoodBounds; infer_instance

/-! ## Helper lemmas -/

lemma STANDARD_WEIGHTS_nonneg (k : Metric) : 0 ≤ STANDARD_WEIGHTS k := by
  cases k <;> norm_num [STANDARD_WEIGHTS]

lemma metricDelta_self (v : ℚ) (hv : 0 ≤ v) : metricDelta v v = 0 := by
  unfold metricDelta
  by_cases hp : 0 < v
  · rw [if_pos hp]
    field_simp
  · rw [if_neg hp, if_pos (le_antisymm (not_lt.mp hp) hv)]

lemma metricDelta_mono (p c₁ c₂ : ℚ) (h0 : 0 ≤ c₁) (h12 : c₁ ≤ c₂) :
    metricDelta p c₁ ≤ metricDelta p c₂ := by
  unfold metricDelta
  by_cases hp : 0 < p
  · rw [if_pos hp, if_pos hp]
    gcongr
  · rw [if_neg hp, if_neg hp]
    by_cases h1 : c₁ = 0
    · rw [if_pos h1]
      by_cases h2 : c₂ = 0
      · rw [if_pos h2]
      · rw [if_neg h2]; norm_num
    · have h2 : c₂ ≠ 0 := fun h => h1 (le_antisymm (h ▸ h12) h0)
      rw [if_neg h1, if_neg h2]

lemma normalizedDelta_mono {d₁ d₂ : ℚ} (h : d₁ ≤ d₂) :
    normalizedDelta d₁ ≤ normalizedDelta d₂ := by
  unfold normalizedDelta
  exact max_le_max (min_le_min (by gcongr) le_rfl) le_rfl

lemma normalizedDelta_zero : normalizedDelta 0 = 0 := by
  norm_num [normalizedDelta]

lemma scoreTerm_self (M : MetricSet) (k : Metric)
    (h : ∀ v, M k = some v → 0 ≤ v) : scoreTerm M M k = 0 := by
  unfold scoreTerm
  cases hk : M k with
  | none => rfl
  | some v =>
      show STANDARD_WEIGHTS k * normalizedDelta (metricDelta v v) = 0
      rw [metricDelta_self v (h v hk), normalizedDelta_zero, mul_zero]

/-! ## Claims about the growth scorer -/

/-- C1: for each weighted metric present in both dicts,
`compare_and_score_growth` reports the delta `((after - before)/before)*100`
when `before > 0`, and when `before == 0` reports `0` if `after == 0` and
`100` otherwise. -/
theorem C1_delta_policy (before after : MetricSet) (key : Metric) (p c : ℚ)
    (hb : before key = some p) (ha : after key = some c) :
    (0 < p →
      (compare_and_score_growth before after).2 key = some (((c - p) / p) * 100)) ∧
    (p = 0 → c = 0 → (compare_and_score_growth before after).2 key = some 0) ∧
    (p = 0 → c ≠ 0 → (compare_and_score_growth before after).2 key = some 100) := by
  unfold compare_and_score_growth growthDeltas metricDelta
  simp only [hb, ha]
  refine ⟨fun hp => ?_, fun hp hc => ?_, fun hp hc => ?_⟩
  · rw [if_pos hp]
  · rw [if_neg (by rw [hp]; exact lt_irrefl 0), if_pos hc]
  · rw [if_neg (by rw [hp]; exact lt_irrefl 0), if_neg hc]

/-- Witness for C1 at concrete inputs (before 2 and 0, after 3). -/
theorem C1_delta_policy_witness :
    (compare_and_score_growth (mset 2) (mset 3)).2 .green_pixel_ratio =
      some (((3 - 2) / 2) * 100) ∧
    (compare_and_score_growth (mset 0) (mset 3)).2 .leaf_count = some 100 ∧
    (compare_and_score_growth (mset 0) (mset 0)).2 .leaf_count = some 0 :=
  ⟨(C1_delta_policy (mset 2) (mset 3) .green_pixel_ratio 2 3 rfl rfl).1
      (by norm_num),
   (C1_delta_policy (mset 0) (mset 3) .leaf_count 0 3 rfl rfl).2.2 rfl
      (by norm_num),
   (C1_delta_policy (mset 0) (mset 0) .leaf_count 0 0 rfl rfl).2.1 rfl rfl⟩

/-- C2: for every pair of metric dicts the score equals
`clamp((Σ weight·clamp(delta/100, -1, 1)) + 1) * 50, 0, 100)` over the
present metrics, and in particular always lies in `[0, 100]`. -/
theorem C2_score_formula (before after : MetricSet) :
    (compare_and_score_growth before after).1 =
      max 0 (min 100
        (((weightOrder.map (fun key =>
            match before key, after key with
            | some p, some c =>
                STANDARD_WEIGHTS key * max (min (metricDelta p c / 100) 1) (-1)
            | _, _ => 0)).sum + 1) * 50)) ∧
    0 ≤ (compare_and_score_growth before after).1 ∧
    (compare_and_score_growth before after).1 ≤ 100 := by
  refine ⟨rfl, le_max_left 0 _, max_le (by norm_num) (min_le_left 100 _)⟩

/-- C3: on any metric dict whose present values are all non-negative,
comparing it with itself scores exactly 50. -/
theorem C3_self_comparison (M : MetricSet)
    (h : ∀ k v, M k = some v → 0 ≤ v) :
    (compare_and_score_growth M M).1 = 50 := by
  have hacc : growthAccum M M = 0 := by
    unfold growthAccum weightOrder
    simp only [List.map_cons, List.map_nil, List.sum_cons, List.sum_nil]
    rw [scoreTerm_self M _ (h _), scoreTerm_self M _ (h _),
        scoreTerm_self M _ (h _), scoreTerm_self M _ (h _),
        scoreTerm_self M _ (h _)]
    norm_num
  unfold compare_and_score_growth
  rw [hacc]
  norm_num

/-- Witness for C3 on the concrete dict with every metric 2. -/
theorem C3_self_comparison_witness :
    (compare_and_score_growth (mset 2) (mset 2)).1 = 50 :=
  C3_self_comparison (mset 2)
    (fun _ v hv => by
      simp only [mset, Option.some.injEq] at hv; subst hv; norm_num)

lemma scoreTerm_set_mono (before after : MetricSet) (key k : Metric)
    (c₁ c₂ : ℚ) (h0 : 0 ≤ c₁) (h12 : c₁ ≤ c₂) :
    scoreTerm before (after.set key c₁) k ≤
      scoreTerm before (after.set key c₂) k := by
  unfold scoreTerm MetricSet.set
  by_cases hk : k = key
  · rw [if_pos hk, if_pos hk]
    cases hb : before k with
    | none => exact le_rfl
    | some p =>
        exact mul_le_mul_of_nonneg_left
          (normalizedDelta_mono (metricDelta_mono p c₁ c₂ h0 h12))
          (STANDARD_WEIGHTS_nonneg k)
  · rw [if_neg hk, if_neg hk]

/-- C4: raising only the after-side `green_pixel_ratio` (to a larger
non-negative value, all other entries of both dicts fixed) never decreases
the score, across the zero-division case, delta saturation, and the final
clamp. -/
theorem C4_green_ratio_monotone (before after : MetricSet) (c₁ c₂ : ℚ)
    (h0 : 0 ≤ c₁) (h12 : c₁ ≤ c₂) :
    (compare_and_score_growth before
        (after.set .green_pixel_ratio c₁)).1 ≤
      (compare_and_score_growth before
        (after.set .green_pixel_ratio c₂)).1 := by
  have hacc : growthAccum before (after.set .green_pixel_ratio c₁) ≤
      growthAccum before (after.set .green_pixel_ratio c₂) := by
    unfold growthAccum weightOrder
    simp only [List.map_cons, List.map_nil, List.sum_cons, List.sum_nil]
    have h := scoreTerm_set_mono before after .green_pixel_ratio
    gcongr <;> exact h _ c₁ c₂ h0 h12
  unfold compare_and_score_growth
  dsimp only
  gcongr

/-- Witness for C4: green ratio 0 versus 1 on the all-ones dicts
(crossing the zero-division case). -/
theorem C4_green_ratio_monotone_witness :
    (compare_and_score_growth (mset 1)
        ((mset 1).set .green_pixel_ratio 0)).1 ≤
      (compare_and_score_growth (mset 1)
        ((mset 1).set .green_pixel_ratio 1)).1 :=
  C4_green_ratio_monotone (mset 1) (mset 1) 0 1 (by norm_num) (by norm_num)

/-! ## Claims about `extract_metrics` -/

/-- C5: `extract_metrics` is total on every pipeline outcome (the
`except Exception` clause means no exception reaches the caller), every
returned dict has all five keys populated, and on any internal failure the
result is exactly the documented all-default dict (area 0, ratios 0.0,
count 0). -/
theorem C5_extract_never_raises (pipeline : PipelineOutcome) :
    (∀ key, (extract_metrics pipeline key).isSome = true) ∧
    (∀ e, pipeline = .error e → extract_metrics pipeline = defaultMetricSet) ∧
    (∀ key, defaultMetricSet key = some 0) := by
  refine ⟨fun key => ?_, fun e he => ?_, fun key => ?_⟩
  · cases pipeline <;> cases key <;> rfl
  · subst he; rfl
  · cases key <;> rfl

/-- Witness for C5 on a concrete failing pipeline. -/
theorem C5_extract_never_raises_witness :
    (extract_metrics (.error ()) .leaf_count).isSome = true ∧
    extract_metrics (.error ()) = defaultMetricSet :=
  ⟨(C5_extract_never_raises (.error ())).1 .leaf_count,
   (C5_extract_never_raises (.error ())).2.1 () rfl⟩

/-! ## Claims about `preprocess_image` -/

/-- C8 counterexample: a zero-size (empty) image is NOT short-circuited by
`preprocess_image` — only `None` is checked — so the call reaches
`cv2.resize`, which raises on an empty source instead of returning all-zero
outputs. -/
theorem C8_counterexample :
    preprocess_image trivialRest (some ⟨0, 0, 3, fun _ => 0⟩) =
      .error .resizeEmptySrc ∧
    ¬∃ out, preprocess_image trivialRest (some ⟨0, 0, 3, fun _ => 0⟩) =
      .ok out := by
  refine ⟨rfl, ?_⟩
  rintro ⟨out, hout⟩
  exact Except.noConfusion (rfl.symm.trans hout)

/-- C8 amended: only a `None` input short-circuits `preprocess_image` to
all-zero outputs of the expected 300×300 shapes; a zero-size image is not
short-circuited and fails in the `cv2.resize` step. -/
theorem C8_none_short_circuit (rest : NpImage → PreprocessOut)
    (img : NpImage) (hemp : img.size = 0) :
    preprocess_image rest none =
      .ok ⟨npZeros 300 300 3, npZeros 300 300 3,
           npZeros 300 300 1, npZeros 300 300 3⟩ ∧
    (npZeros 300 300 3).allZero ∧ (npZeros 300 300 1).allZero ∧
    preprocess_image rest (some img) = .error .resizeEmptySrc := by
  refine ⟨rfl, fun _ => rfl, fun _ => rfl, ?_⟩
  simp [preprocess_image, cv2_resize, hemp]

/-- Witness for the amended C8 at the concrete empty image. -/
theorem C8_none_short_circuit_witness :
    preprocess_image trivialRest none =
      .ok ⟨npZeros 300 300 3, npZeros 300 300 3,
           npZeros 300 300 1, npZeros 300 300 3⟩ ∧
    (npZeros 300 300 3).allZero ∧ (npZeros 300 300 1).allZero ∧
    preprocess_image trivialRest (some ⟨2, 0, 3, fun _ => 0⟩) =
      .error .resizeEmptySrc :=
  C8_none_short_circuit trivialRest ⟨2, 0, 3, fun _ => 0⟩ rfl

/-! ## Claims about the leaf-count threshold -/

/-- C9: on a non-empty cleaned mask (positive maximal distance), the
threshold fraction is `min(0.6, max(0.3, max_dist / 50))`, lies in
`[0.3, 0.6]`, is non-decreasing in the maximal distance, and the seed image
marks exactly the pixels whose distance strictly exceeds
`fraction * max_dist`. -/
theorem C9_adaptive_threshold (dist : DistTransform)
    (h : 0 < maxDist dist) :
    threshold_factor (maxDist dist) =
      min (6/10) (max (3/10) (maxDist dist / 50)) ∧
    3/10 ≤ threshold_factor (maxDist dist) ∧
    threshold_factor (maxDist dist) ≤ 6/10 ∧
    (∀ m₁ m₂ : ℚ, m₁ ≤ m₂ → threshold_factor m₁ ≤ threshold_factor m₂) ∧
    sure_fg_seeds dist = some (dist.map (fun d =>
      if threshold_factor (maxDist dist) * maxDist dist < d then 255 else 0)) := by
  refine ⟨rfl, ?_, ?_, fun m₁ m₂ h12 => ?_, ?_⟩
  · exact le_min (by norm_num) (le_max_left _ _)
  · exact min_le_left _ _
  · unfold threshold_factor
    gcongr
  · unfold sure_fg_seeds
    rw [if_pos h]
    rfl

/-- Witness for C9 on the concrete distance transform `[1, 2]`. -/
theorem C9_adaptive_threshold_witness :
    threshold_factor (maxDist [1, 2]) =
      min (6/10) (max (3/10) (maxDist [1, 2] / 50)) ∧
    3/10 ≤ threshold_factor (maxDist [1, 2]) :=
  ⟨(C9_adaptive_threshold [1, 2] (by norm_num [maxDist])).1,
   (C9_adaptive_threshold [1, 2] (by norm_num [maxDist])).2.1⟩

/-! ## Claims about `get_dynamic_green_bounds` -/

lemma foldl_best_mem (a : HSVq × ℚ) (xs : List (HSVq × ℚ)) :
    xs.foldl (fun best y => if sortKeyLt best y then y else best) a ∈ a :: xs := by
  induction xs generalizing a with
  | nil => simp
  | cons y ys ih =>
      simp only [List.foldl_cons]
      by_cases hb : sortKeyLt a y
      · rw [if_pos hb]
        have h := ih y
        simp only [List.mem_cons] at h ⊢
        tauto
      · rw [if_neg hb]
        have h := ih a
        simp only [List.mem_cons] at h ⊢
        tauto

lemma chooseGreen_mem {l : List (HSVq × ℚ)} {x : HSVq × ℚ}
    (h : chooseGreen l = some x) : x ∈ l := by
  cases l with
  | nil => exact absurd h (by simp [chooseGreen])
  | cons a xs =>
      simp only [chooseGreen, Option.some.injEq] at h
      rw [← h]
      exact foldl_best_mem a xs

lemma greenishClusters_mem {centers : List HSVq} {x : HSVq × ℚ}
    (h : x ∈ greenishClusters centers) :
    x.1 ∈ centers ∧ clusterConfidence x.1 = some x.2 := by
  unfold greenishClusters at h
  rw [List.mem_filterMap] at h
  obtain ⟨a, ha, hfa⟩ := h
  cases hca : clusterConfidence a with
  | none => rw [hca] at hfa; exact absurd hfa (by simp)
  | some cf =>
      rw [hca] at hfa
      simp only [Option.map_some', Option.some.injEq] at hfa
      rw [← hfa]
      exact ⟨ha, hca⟩

lemma clusterConfidence_ranges {c : HSVq} {conf : ℚ}
    (h : clusterConfidence c = some conf) :
    25 ≤ c.h ∧ c.h ≤ 95 ∧ 20 ≤ c.s ∧ 30 ≤ c.v := by
  unfold clusterConfidence at h
  by_cases h1 : 40 ≤ c.h ∧ c.h ≤ 80 ∧ 30 ≤ c.s ∧ 40 ≤ c.v
  · obtain ⟨a, b, d, e⟩ := h1
    exact ⟨by linarith, by linarith, by linarith, by linarith⟩
  · rw [if_neg h1] at h
    by_cases h2 : 25 ≤ c.h ∧ c.h ≤ 95 ∧ 20 ≤ c.s ∧ 30 ≤ c.v
    · exact h2
    · rw [if_neg h2] at h
      exact absurd h (by simp)

lemma greenPeaks_head_ranges {hue_peaks : List ℕ} {p : ℕ} {rest : List ℕ}
    (h : greenPeaks hue_peaks = p :: rest) : 25 ≤ p ∧ p ≤ 95 := by
  have hp : p ∈ greenPeaks hue_peaks := by
    rw [h]; exact List.mem_cons_self _ _
  unfold greenPeaks at hp
  rw [List.mem_filter] at hp
  simpa using hp.2

lemma resolveCenter_ranges {centers : List HSVq} {hue_peaks : List ℕ}
    {c : HSVq}
    (hwf : ∀ x ∈ centers, 0 ≤ x.h ∧ x.h ≤ 179 ∧ 0 ≤ x.s ∧ x.s ≤ 255 ∧
      0 ≤ x.v ∧ x.v ≤ 255)
    (h : resolveCenter centers hue_peaks = some c) :
    25 ≤ c.h ∧ c.h ≤ 95 ∧ 20 ≤ c.s ∧ c.s ≤ 255 ∧ 30 ≤ c.v ∧ c.v ≤ 255 := by
  unfold resolveCenter at h
  cases hcg : chooseGreen (greenishClusters centers) with
  | some best =>
      rw [hcg] at h
      dsimp only at h
      obtain ⟨hmemc, hconf⟩ := greenishClusters_mem (chooseGreen_mem hcg)
      obtain ⟨ha1, ha2, ha3, ha4⟩ := clusterConfidence_ranges hconf
      obtain ⟨hb1, hb2, hb3, hb4, hb5, hb6⟩ := hwf best.1 hmemc
      by_cases hgp : greenPeaks hue_peaks = []
      · rw [if_pos hgp] at h
        injection h with h
        subst h
        simp only [typicalGreen]
        refine ⟨?_, ?_, ?_, ?_, ?_, ?_⟩ <;> dsimp only <;> linarith
      · rw [if_neg hgp] at h
        injection h with h
        subst h
        exact ⟨ha1, ha2, ha3, hb4, ha4, hb6⟩
  | none =>
      rw [hcg] at h
      dsimp only at h
      cases hgp : greenPeaks hue_peaks with
      | nil => rw [hgp] at h; exact absurd h (by simp)
      | cons p rest =>
          rw [hgp] at h
          injection h with h
          subst h
          obtain ⟨hp1, hp2⟩ := greenPeaks_head_ranges hgp
          refine ⟨?_, ?_, by norm_num, by norm_num, by norm_num, by norm_num⟩
          · dsimp only
            exact_mod_cast hp1
          · dsimp only
            exact_mod_cast hp2

lemma floor_le_ofint {q : ℚ} {n : ℤ} (h : q ≤ (n : ℚ)) : ⌊q⌋ ≤ n := by
  have h2 := Int.floor_le_floor h
  rwa [Int.floor_intCast] at h2

lemma u8cast_eq_floor {q : ℚ} (h0 : 0 ≤ q) (h : q ≤ 255) :
    u8cast q = ⌊q⌋ := by
  unfold u8cast
  have h1 : 0 ≤ ⌊q⌋ := Int.floor_nonneg.mpr h0
  have h2 : ⌊q⌋ ≤ 255 := floor_le_ofint (by exact_mod_cast h)
  omega

lemma adaptiveBounds_good (margin : ℚ) (c : HSVq)
    (hh1 : 25 ≤ c.h) (hh2 : c.h ≤ 95) (hs1 : 20 ≤ c.s) (hs2 : c.s ≤ 255)
    (hv1 : 30 ≤ c.v) (hv2 : c.v ≤ 255) :
    GoodBounds (adaptiveBounds margin c) ∧
    (adaptiveBounds margin c).2.2.1 = 255 ∧
    (adaptiveBounds margin c).2.2.2 = 255 := by
  have hfs : (0 : ℚ) ≤ (⌊c.s / 10⌋ : ℚ) := by
    have : (0 : ℤ) ≤ ⌊c.s / 10⌋ := Int.floor_nonneg.mpr (by positivity)
    exact_mod_cast this
  unfold adaptiveBounds GoodBounds
  set hm : ℚ := max 10 (min margin (25 - (⌊c.s / 10⌋ : ℚ))) with hhm
  set sm : ℚ := min 60 (max 40 (100 - c.s)) with hsm
  set vm : ℚ := min 60 (max 40 (120 - c.v)) with hvm
  have hm1 : 10 ≤ hm := le_max_left _ _
  have hm2 : hm ≤ 25 := by
    rw [hhm]
    refine max_le (by norm_num) ((min_le_right _ _).trans ?_)
    linarith
  have sm1 : 40 ≤ sm := le_min (by norm_num) (le_max_left _ _)
  have sm2 : sm ≤ 60 := min_le_left _ _
  have vm1 : 40 ≤ vm := le_min (by norm_num) (le_max_left _ _)
  have vm2 : vm ≤ 60 := min_le_left _ _
  have hminr : min 179 (c.h + hm) = c.h + hm := min_eq_right (by linarith)
  have eLH : u8cast (max 0 (c.h - hm)) = ⌊max 0 (c.h - hm)⌋ :=
    u8cast_eq_floor (le_max_left _ _)
      (max_le (by norm_num) (by linarith))
  have eUH : u8cast (min 179 (c.h + hm)) = ⌊c.h + hm⌋ := by
    rw [hminr]
    exact u8cast_eq_floor (by linarith) (by linarith)
  have eLS : u8cast (max 0 (c.s - sm)) = ⌊max 0 (c.s - sm)⌋ :=
    u8cast_eq_floor (le_max_left _ _)
      (max_le (by norm_num) (by linarith))
  have eLV : u8cast (max 0 (c.v - vm)) = ⌊max 0 (c.v - vm)⌋ :=
    u8cast_eq_floor (le_max_left _ _)
      (max_le (by norm_num) (by linarith))
  dsimp only
  rw [eLH, eUH, eLS, eLV]
  refine ⟨⟨?_, ?_, ?_, ?_, ?_, ?_, ?_, ?_, ?_⟩, rfl, rfl⟩
  · exact Int.floor_nonneg.mpr (le_max_left _ _)
  · exact Int.floor_le_floor (max_le (by linarith) (by linarith))
  · exact floor_le_ofint (by push_cast; linarith)
  · exact Int.floor_nonneg.mpr (le_max_left _ _)
  · exact floor_le_ofint
      (by push_cast; exact max_le (by norm_num) (by linarith))
  · norm_num
  · exact Int.floor_nonneg.mpr (le_max_left _ _)
  · exact floor_le_ofint
      (by push_cast; exact max_le (by norm_num) (by linarith))
  · norm_num

lemma resolveCenter_eq_none {centers : List HSVq} {hue_peaks : List ℕ}
    (hgc : greenishClusters centers = [])
    (hgp : greenPeaks hue_peaks = []) :
    resolveCenter centers hue_peaks = none := by
  unfold resolveCenter
  rw [hgc, hgp]
  rfl

/-- C6: `get_dynamic_green_bounds` is a total function of its input
(no exception escapes): a `None`/zero-size image, an internal exception,
and the no-green-cluster-and-no-green-peak outcome all map to static
fallback bounds. -/
theorem C6_total_with_fallbacks (margin : ℚ) (input : BoundsInput) :
    (input = .degenerate →
      get_dynamic_green_bounds input margin = FALLBACK_DEGENERATE) ∧
    (input = .raises →
      get_dynamic_green_bounds input margin = FALLBACK_ERROR) ∧
    (∀ centers hue_peaks, input = .analyzed centers hue_peaks →
      greenishClusters centers = [] → greenPeaks hue_peaks = [] →
      get_dynamic_green_bounds input margin = FALLBACK_ERROR) := by
  refine ⟨fun h => by subst h; rfl, fun h => by subst h; rfl, ?_⟩
  rintro centers hue_peaks rfl hgc hgp
  simp only [get_dynamic_green_bounds]
  rw [resolveCenter_eq_none hgc hgp]

/-- Witness for C6 on the three concrete degenerate inputs (a non-green
cluster centre and a non-green histogram peak for the third). -/
theorem C6_total_with_fallbacks_witness :
    get_dynamic_green_bounds .degenerate = FALLBACK_DEGENERATE ∧
    get_dynamic_green_bounds .raises = FALLBACK_ERROR ∧
    get_dynamic_green_bounds (.analyzed [⟨0, 0, 0⟩] [120]) = FALLBACK_ERROR :=
  ⟨(C6_total_with_fallbacks 15 .degenerate).1 rfl,
   (C6_total_with_fallbacks 15 .raises).2.1 rfl,
   (C6_total_with_fallbacks 15 (.analyzed [⟨0, 0, 0⟩] [120])).2.2
     [⟨0, 0, 0⟩] [120] rfl (by decide) (by decide)⟩

/-- C7: every returned pair satisfies `lower ≤ upper` componentwise with
hue components in `[0, 179]` and saturation/value components in `[0, 255]`
(for well-formed cluster centres/peaks, as produced by KMeans over HSV
pixels), and on every non-fallback path the upper saturation and value
bounds are exactly 255. -/
theorem C7_bounds_invariant (margin : ℚ) (input : BoundsInput)
    (hwf : WellFormedInput input) :
    GoodBounds (get_dynamic_green_bounds input margin) ∧
    (∀ centers hue_peaks c, input = .analyzed centers hue_peaks →
      resolveCenter centers hue_peaks = some c →
      (get_dynamic_green_bounds input margin).2.2.1 = 255 ∧
      (get_dynamic_green_bounds input margin).2.2.2 = 255) := by
  cases input with
  | degenerate =>
      exact ⟨show GoodBounds FALLBACK_DEGENERATE by decide,
             fun _ _ _ h => BoundsInput.noConfusion h⟩
  | raises =>
      exact ⟨show GoodBounds FALLBACK_ERROR by decide,
             fun _ _ _ h => BoundsInput.noConfusion h⟩
  | analyzed centers hue_peaks =>
      obtain ⟨hc, _⟩ := hwf
      cases hres : resolveCenter centers hue_peaks with
      | none =>
          refine ⟨?_, ?_⟩
          · simp only [get_dynamic_green_bounds, hres]
            decide
          · rintro centers' hue_peaks' c heq hsome
            injection heq with h1 h2
            subst h1; subst h2
            rw [hres] at hsome
            exact Option.noConfusion hsome
      | some c =>
          obtain ⟨h1, h2, h3, h4, h5, h6⟩ := resolveCenter_ranges hc hres
          have hgood := adaptiveBounds_good margin c h1 h2 h3 h4 h5 h6
          simp only [get_dynamic_green_bounds, hres]
          exact ⟨hgood.1, fun _ _ _ _ _ => hgood.2⟩

/-- Witness for C7 on a concrete well-formed input with one strongly green
cluster centre. -/
theorem C7_bounds_invariant_witness :
    GoodBounds (get_dynamic_green_bounds (.analyzed [⟨60, 200, 150⟩] [])) :=
  (C7_bounds_invariant 15 (.analyzed [⟨60, 200, 150⟩] [])
    ⟨by decide, by decide⟩).1

/-- C10: the two static fallbacks are distinct and are assigned to distinct
degenerate paths — `(25,40,40)/(90,255,255)` for a `None`/zero-size input,
`(30,40,40)/(85,255,255)` for an internal exception or the
no-green-cluster-and-no-green-peak outcome. -/
theorem C10_distinct_fallbacks :
    FALLBACK_DEGENERATE = ((25, 40, 40), (90, 255, 255)) ∧
    FALLBACK_ERROR = ((30, 40, 40), (85, 255, 255)) ∧
    FALLBACK_DEGENERATE ≠ FALLBACK_ERROR ∧
    (∀ margin : ℚ,
      get_dynamic_green_bounds .degenerate margin = FALLBACK_DEGENERATE) ∧
    (∀ margin : ℚ,
      get_dynamic_green_bounds .raises margin = FALLBACK_ERROR) ∧
    (∀ (margin : ℚ) centers hue_peaks, greenishClusters centers = [] →
      greenPeaks hue_peaks = [] →
      get_dynamic_green_bounds (.analyzed centers hue_peaks) margin =
        FALLBACK_ERROR) := by
  refine ⟨rfl, rfl, by decide, fun _ => rfl, fun _ => rfl, ?_⟩
  intro margin centers hue_peaks hgc hgp
  simp only [get_dynamic_green_bounds]
  rw [resolveCenter_eq_none hgc hgp]

/-- Witness for C10 on concrete inputs for each degenerate path. -/
theorem C10_distinct_fallbacks_witness :
    get_dynamic_green_bounds .degenerate = FALLBACK_DEGENERATE ∧
    get_dynamic_green_bounds (.analyzed [] []) = FALLBACK_ERROR :=
  ⟨C10_distinct_fallbacks.2.2.2.1 15,
   C10_distinct_fallbacks.2.2.2.2.2 15 [] [] rfl rfl⟩

end PlantPixel
